import Mathlib

/-!
Shallow embedding of the room-allocation and payment-deadline lifecycle of the
res-appwrite hostel-management portal, together with proofs and refutations of
the frozen specification claims.

Sources embedded:
  - `src/data/appwrite-hostel-data.ts` (allocateRoom, revokeRoomAllocation,
    checkAndUpdateOverduePayments, fetchHostelSettings, addRoomsInRange,
    removeOccupantFromRoom, updateHostel, fetchHostelById, ...)
  - `src/data/appwrite-payment-data.ts` (approvePayment, addAdminPayment,
    rejectPayment, deletePayment)
  - `src/data/appwrite-settings-data.ts` (getHostelSettings)
  - the payment-deadline sweep route handler (POST / GET, `src/unnamed/part_002`)

Modelling conventions:
  - The Appwrite document store is a record of in-memory lists (one per
    collection).  Single-document get/update/delete address documents by id;
    document ids are unique per collection in the real store, and theorems that
    need this state it as a `Nodup` hypothesis.
  - Timestamps are integers (milliseconds since the epoch), as in JavaScript
    `Date.now()`.  The calendar decoding of a timestamp (`getMonth`,
    `getFullYear`) is carried alongside the millisecond value in a `DateTime`
    record instead of being recomputed, so `new Date()` becomes an explicit
    parameter.  JavaScript `date.setHours(date.getHours() + g)` adds
    `g * 3600000` milliseconds.
  - Store failures: read helpers in the source catch store errors and return
    null/empty, which is modelled by the document simply being absent.  The one
    claim that depends on a thrown store error (the 500 branch of the sweep
    route) takes an explicit `storeFails` flag placed exactly where
    `fetchAllRoomAllocations` can throw.
  - `Promise.all` over per-document writes is modelled as a left fold in list
    order; the verified properties do not depend on the interleaving.
-/

namespace ResApp

/-- Payment status of a room allocation: 'Pending' | 'Paid' | 'Overdue'. -/
inductive PayStatus where
  | pending
  | paid
  | overdue
  deriving DecidableEq

/-- Status of a payment record: 'Pending' | 'Approved' | 'Rejected'. -/
inductive PaymentState where
  | pending
  | approved
  | rejected
  deriving DecidableEq

/-- Room of the hostel tree (types/hostel.ts via its uses in
appwrite-hostel-data.ts): id, number, display fields, capacity, occupant
registration numbers, gender policy, reservation and availability flags,
feature tags. -/
structure Room where
  id : String
  number : String
  floor : String
  floorName : String
  hostelName : String
  price : Int
  capacity : Nat
  occupants : List String
  gender : String
  isReserved : Bool
  isAvailable : Bool
  features : List String
  deriving DecidableEq

/-- Floor of the hostel tree: id, display number, display name, rooms. -/
structure Floor where
  id : String
  number : String
  name : String
  rooms : List Room
  deriving DecidableEq

/-- Hostel document: the whole floor/room tree is stored inside the document
(serialised as one JSON field in the real store). -/
structure Hostel where
  id : String
  name : String
  description : String
  totalCapacity : Int
  currentOccupancy : Int
  gender : String
  floors : List Floor
  isActive : Bool
  pricePerSemester : Int
  features : List String
  deriving DecidableEq

/-- RoomAllocation document, as created by allocateRoom and read back by the
fetch helpers. -/
structure RoomAllocation where
  id : String
  studentRegNumber : String
  roomId : String
  hostelId : String
  allocatedAt : Int
  paymentStatus : PayStatus
  paymentDeadline : Int
  semester : String
  academicYear : String
  paymentId : Option String
  deriving DecidableEq

/-- Payment document (appwrite-payment-data.ts). -/
structure Payment where
  id : String
  studentRegNumber : String
  allocationId : String
  receiptNumber : String
  amount : Int
  paymentMethod : String
  submittedAt : Int
  status : PaymentState
  approvedBy : Option String
  approvedAt : Option Int
  rejectionReason : Option String
  notes : String
  deriving DecidableEq

/-- Hostel settings fields, shared by the settings document and the two
accessor results. -/
structure HostelSettings where
  paymentGracePeriod : Int
  autoRevokeUnpaidAllocations : Bool
  maxRoomCapacity : Int
  allowMixedGender : Bool
  deriving DecidableEq

/-- The document store: one list per collection.  The SETTINGS collection is a
list of (document id, fields) pairs because its two accessors address it
differently (first document vs. the fixed id 'hostel-settings'). -/
structure DB where
  hostels : List Hostel
  allocations : List RoomAllocation
  payments : List Payment
  settings : List (String × HostelSettings)
  deriving DecidableEq

/-- Calendar instant: the millisecond timestamp together with its decoded
year and 1-based month (JavaScript `getFullYear()` / `getMonth() + 1`). -/
structure DateTime where
  ms : Int
  year : Int
  month : Int
  deriving DecidableEq

/-! ## Settings accessors -/

/-- Embeds `fetchHostelSettings` (appwrite-hostel-data.ts): lists the SETTINGS
collection with limit 1 and takes the first document's fields verbatim; when
the collection is empty (or the store fails) it returns the hard-coded
defaults 168 h / auto-revoke on / capacity 4 / no mixed gender. -/
def fetchHostelSettings (db : DB) : HostelSettings :=
  match db.settings.head? with
  | some (_, doc) => doc
  | none =>
    { paymentGracePeriod := 168
      autoRevokeUnpaidAllocations := true
      maxRoomCapacity := 4
      allowMixedGender := false }

/-- Embeds `getHostelSettings` (appwrite-settings-data.ts): fetches the
document with the fixed id 'hostel-settings'; each numeric field goes through
JavaScript `x || default`, so a stored 0 falls back to the default (24 h grace,
capacity 4); a missing document (or store failure) yields the defaults with
auto-revoke off. -/
def getHostelSettings (db : DB) : HostelSettings :=
  match db.settings.lookup "hostel-settings" with
  | some doc =>
    { paymentGracePeriod := if doc.paymentGracePeriod = 0 then 24 else doc.paymentGracePeriod
      autoRevokeUnpaidAllocations := doc.autoRevokeUnpaidAllocations
      maxRoomCapacity := if doc.maxRoomCapacity = 0 then 4 else doc.maxRoomCapacity
      allowMixedGender := doc.allowMixedGender }
  | none =>
    { paymentGracePeriod := 24
      autoRevokeUnpaidAllocations := false
      maxRoomCapacity := 4
      allowMixedGender := false }

/-! ## Date helpers -/

/-- Embeds `getCurrentSemester`: `month >= 8 || month <= 1` selects
"Semester 1", otherwise "Semester 2". -/
def getCurrentSemester (d : DateTime) : String :=
  if 8 ≤ d.month ∨ d.month ≤ 1 then "Semester 1" else "Semester 2"

/-- Embeds `getCurrentAcademicYear`: month ≥ 8 yields "year/year+1",
otherwise "year-1/year". -/
def getCurrentAcademicYear (d : DateTime) : String :=
  if 8 ≤ d.month then
    toString d.year ++ "/" ++ toString (d.year + 1)
  else
    toString (d.year - 1) ++ "/" ++ toString d.year

/-! ## Hostel document access -/

/-- Embeds `fetchHostelById`: get-by-id, null when absent (the source also
maps store failure to null through its catch block). -/
def fetchHostelById (db : DB) (hostelId : String) : Option Hostel :=
  db.hostels.find? (fun h => h.id = hostelId)

/-- Embeds the write half of `updateHostel` as used by the lifecycle
functions, which always pass every field: the document with the given id is
replaced.  Ids are unique in the real store, so mapping over all matches is
exact. -/
def updateHostelDoc (db : DB) (hostelId : String) (h : Hostel) : DB :=
  { db with hostels := db.hostels.map (fun g => if g.id = hostelId then h else g) }

/-! ## allocateRoom -/

/-- Embeds the per-room body of allocateRoom's forEach: rooms whose id matches
get the student pushed onto `occupants`, and `isAvailable` is forced to false
once the list reaches capacity. -/
def allocatePushRoom (reg roomId : String) (r : Room) : Room :=
  if r.id = roomId then
    let occ := r.occupants ++ [reg]
    { r with
      occupants := occ
      isAvailable := if r.capacity ≤ occ.length then false else r.isAvailable }
  else r

/-- Applies `allocatePushRoom` across the whole floor/room tree, as the nested
forEach loops of allocateRoom do. -/
def allocateUpdateTree (reg roomId : String) (h : Hostel) : Hostel :=
  { h with
    floors := h.floors.map (fun f =>
      { f with rooms := f.rooms.map (allocatePushRoom reg roomId) }) }

/-- Builds the allocation record constructed at the top of allocateRoom:
status Pending, deadline `now + gracePeriod hours`, semester and academic year
from the current date. -/
def mkAllocation (reg roomId hostelId newId : String) (d : DateTime)
    (grace : Int) : RoomAllocation :=
  { id := newId
    studentRegNumber := reg
    roomId := roomId
    hostelId := hostelId
    allocatedAt := d.ms
    paymentStatus := .pending
    paymentDeadline := d.ms + grace * 60 * 60 * 1000
    semester := getCurrentSemester d
    academicYear := getCurrentAcademicYear d
    paymentId := none }

/-- Embeds `allocateRoom`: reads settings, persists the new allocation record,
then (only when the hostel document loads) pushes the student into every room
matching `roomId` and writes the hostel back.  A missing hostel or missing
room raises no error; the created allocation is returned regardless.  `newId`
stands for the fresh document id the store mints. -/
def allocateRoom (db : DB) (reg roomId hostelId newId : String)
    (d : DateTime) : DB × RoomAllocation :=
  let settings := fetchHostelSettings db
  let alloc := mkAllocation reg roomId hostelId newId d settings.paymentGracePeriod
  let db1 := { db with allocations := db.allocations ++ [alloc] }
  let db2 :=
    match fetchHostelById db1 hostelId with
    | some h => updateHostelDoc db1 hostelId (allocateUpdateTree reg roomId h)
    | none => db1
  (db2, alloc)

/-! ## revokeRoomAllocation -/

/-- Embeds the per-room body of revokeRoomAllocation's forEach: rooms whose id
matches have every occurrence of the student filtered out of `occupants`, and
`isAvailable` is set to true unconditionally. -/
def revokeFixRoom (reg roomId : String) (r : Room) : Room :=
  if r.id = roomId then
    { r with
      occupants := r.occupants.filter (fun occ => occ ≠ reg)
      isAvailable := true }
  else r

/-- Applies `revokeFixRoom` across the whole floor/room tree. -/
def revokeUpdateTree (reg roomId : String) (h : Hostel) : Hostel :=
  { h with
    floors := h.floors.map (fun f =>
      { f with rooms := f.rooms.map (revokeFixRoom reg roomId) }) }

/-- Embeds `revokeRoomAllocation`: reads the allocation (throwing when the
document is absent), removes the student from the room tree when the hostel
loads, then deletes the allocation record last. -/
def revokeRoomAllocation (db : DB) (allocationId : String) :
    DB × Except String Unit :=
  match db.allocations.find? (fun a => a.id = allocationId) with
  | none => (db, .error "Document not found")
  | some a =>
    let db1 :=
      match fetchHostelById db a.hostelId with
      | some h =>
        updateHostelDoc db a.hostelId (revokeUpdateTree a.studentRegNumber a.roomId h)
      | none => db
    ({ db1 with
       allocations := db1.allocations.filter (fun x => x.id ≠ allocationId) },
     .ok ())

/-- Revokes each listed allocation in turn, counting the revocations that
succeed; failures of individual revocations are swallowed (Promise.allSettled
in the sweep route). -/
def revokeAll (db : DB) (ids : List String) : DB × Nat :=
  ids.foldl
    (fun acc i =>
      let step := revokeRoomAllocation acc.1 i
      (step.1, acc.2 + match step.2 with | .ok _ => 1 | .error _ => 0))
    (db, 0)

/-! ## Deadline sweep -/

/-- Filter used by `checkAndUpdateOverduePayments`: paymentStatus Pending and
deadline strictly before now. -/
def overduePred (now : Int) (a : RoomAllocation) : Bool :=
  a.paymentStatus = PayStatus.pending ∧ a.paymentDeadline < now

/-- Embeds `checkAndUpdateOverduePayments`: lists all allocations, marks every
Pending one whose deadline has passed as Overdue (update by document id), then
re-reads settings and, when auto-revoke is enabled, revokes each allocation
just marked.  Returns the count marked Overdue and the count submitted for
revocation (both logged by the source). -/
def checkAndUpdateOverduePayments (db : DB) (now : Int) : DB × Nat × Nat :=
  let overdue := db.allocations.filter (overduePred now)
  let overdueIds := overdue.map (fun a => a.id)
  let db1 := { db with
    allocations := db.allocations.map (fun a =>
      if a.id ∈ overdueIds then { a with paymentStatus := .overdue } else a) }
  let settings := fetchHostelSettings db1
  if settings.autoRevokeUnpaidAllocations then
    ((revokeAll db1 overdueIds).1, overdue.length, overdue.length)
  else
    (db1, overdue.length, 0)

/-- Expiry test of the sweep route: unpaid (Pending or Overdue) and current
time strictly after the stored deadline plus the grace period in hours. -/
def sweepExpired (grace now : Int) (a : RoomAllocation) : Bool :=
  (a.paymentStatus = PayStatus.pending ∨ a.paymentStatus = PayStatus.overdue) ∧
    a.paymentDeadline + grace * 60 * 60 * 1000 < now

/-- Bearer-token comparison at the top of the sweep route:
`authHeader === 'Bearer ' + expectedToken`. -/
def bearerOk (authHeader : Option String) (expectedToken : String) : Bool :=
  authHeader = some ("Bearer " ++ expectedToken)

/-- Shape of the JSON responses of the sweep route; fields absent from a
branch are `none`. -/
structure PostResponse where
  status : Nat
  message : String
  totalExpired : Option Nat
  revokedCount : Option Nat
  deriving DecidableEq

/-- Embeds the POST handler of the payment-deadline route: 401 on a bad or
missing bearer token (no state change); 200 "Auto-revoke is disabled" when
settings disable auto-revoke; otherwise it lists all allocations (`storeFails`
marks the throw point of `fetchAllRoomAllocations`, caught as a 500), filters
the unpaid ones past deadline + grace, revokes each, and returns 200 with the
expired and successfully-revoked counts. -/
def postSweep (db : DB) (authHeader : Option String) (expectedToken : String)
    (storeFails : Bool) (now : Int) : DB × PostResponse :=
  if bearerOk authHeader expectedToken then
    let settings := getHostelSettings db
    if settings.autoRevokeUnpaidAllocations then
      if storeFails then
        (db, { status := 500, message := "Internal server error",
               totalExpired := none, revokedCount := none })
      else
        let expired := db.allocations.filter (sweepExpired settings.paymentGracePeriod now)
        let step := revokeAll db (expired.map (fun a => a.id))
        (step.1,
         { status := 200, message := "Payment deadline check completed",
           totalExpired := some expired.length, revokedCount := some step.2 })
    else
      (db, { status := 200, message := "Auto-revoke is disabled",
             totalExpired := none, revokedCount := some 0 })
  else
    (db, { status := 401, message := "Unauthorized",
           totalExpired := none, revokedCount := none })

/-! ## addRoomsInRange -/

/-- Inclusive integer range `[lo, lo+1, ..., hi]` of the for-loop
`for (let i = startNumber; i <= endNumber; i++)`; empty when `hi < lo`. -/
def intRange (lo hi : Int) : List Int :=
  (List.range (hi + 1 - lo).toNat).map (fun k => lo + (k : Int))

/-- Composed room number of `addRoomsInRange`:
`prefix + i + suffix` (`pre`/`suf` because `prefix` is reserved in Lean). -/
def composeNumber (pre suf : String) (i : Int) : String :=
  pre ++ toString i ++ suf

/-- Room object pushed by `addRoomsInRange` for a fresh room number. -/
def mkRangeRoom (hostel : Hostel) (f : Floor) (hostelId floorId : String)
    (pre suf : String) (capacity : Nat) (gender : String)
    (features : List String) (i : Int) : Room :=
  { id := hostelId ++ "_" ++ floorId ++ "_" ++ composeNumber pre suf i
    number := composeNumber pre suf i
    floor := f.name
    floorName := f.name
    hostelName := hostel.name
    price := hostel.pricePerSemester
    capacity := capacity
    occupants := []
    gender := gender
    isReserved := false
    isAvailable := true
    features := features }

/-- Replaces the first floor matching `floorId` (the source mutates the single
floor object returned by `floors.find`). -/
def updateFirstFloor (floors : List Floor) (floorId : String)
    (g : Floor → Floor) : List Floor :=
  match floors with
  | [] => []
  | f :: rest =>
    if f.id = floorId then g f :: rest
    else f :: updateFirstFloor rest floorId g

/-- Range integers whose composed room number does not already occur on the
floor, by exact string match against the pre-existing rooms (the loop body's
`existingRoom` check). -/
def freshNumbers (f : Floor) (startNumber endNumber : Int)
    (pre suf : String) : List Int :=
  (intRange startNumber endNumber).filter (fun i =>
    ¬ f.rooms.any (fun r => r.number = composeNumber pre suf i))

/-- Embeds `addRoomsInRange`: fails when the hostel or floor is missing;
otherwise, for each integer in the inclusive range whose composed number does
not already occur on the floor (exact string match against the pre-existing
rooms), appends a fresh room, and adds the sum of the new rooms' capacities to
`totalCapacity`. -/
def addRoomsInRange (db : DB) (hostelId floorId : String)
    (startNumber endNumber : Int) (pre suf : String) (capacity : Nat)
    (gender : String) (features : List String) : DB × Except String Unit :=
  match fetchHostelById db hostelId with
  | none => (db, .error "Hostel not found")
  | some hostel =>
    match hostel.floors.find? (fun f => f.id = floorId) with
    | none => (db, .error "Floor not found")
    | some f =>
      let newRooms := (freshNumbers f startNumber endNumber pre suf).map
        (mkRangeRoom hostel f hostelId floorId pre suf capacity gender features)
      let hostel1 := { hostel with
        floors := updateFirstFloor hostel.floors floorId
          (fun fl => { fl with rooms := fl.rooms ++ newRooms })
        totalCapacity :=
          hostel.totalCapacity + (newRooms.map (fun r => (r.capacity : Int))).sum }
      (updateHostelDoc db hostelId hostel1, .ok ())

/-! ## removeOccupantFromRoom -/

/-- Removes the first occurrence of `reg`, as `findIndex` + `splice(i, 1)`
does. -/
def removeFirstOccurrence (l : List String) (reg : String) : List String :=
  match l with
  | [] => []
  | x :: xs => if x = reg then xs else x :: removeFirstOccurrence xs reg

/-- Embeds the per-room body of removeOccupantFromRoom's forEach: in rooms
whose id matches and that contain the student, the first occurrence is
spliced out and `isAvailable` becomes true when the list is now below
capacity. -/
def removeOccupantFixRoom (roomId reg : String) (r : Room) : Room :=
  if r.id = roomId ∧ reg ∈ r.occupants then
    let occ := removeFirstOccurrence r.occupants reg
    { r with
      occupants := occ
      isAvailable := if occ.length < r.capacity then true else r.isAvailable }
  else r

/-- Occupant sum of a hostel tree, as recomputed by removeOccupantFromRoom's
nested reduce. -/
def hostelOccupantSum (h : Hostel) : Nat :=
  (h.floors.map (fun f => (f.rooms.map (fun r => r.occupants.length)).sum)).sum

/-- Embeds `fetchAllocationByStudent`: the student's allocation with the
latest `allocatedAt` (list filtered by reg number, ordered descending, limit
1). -/
def fetchAllocationByStudent (db : DB) (reg : String) : Option RoomAllocation :=
  let mine := db.allocations.filter (fun a => a.studentRegNumber = reg)
  mine.foldl
    (fun best a =>
      match best with
      | none => some a
      | some b => if b.allocatedAt < a.allocatedAt then some a else some b)
    none

/-- The hostel written back by removeOccupantFromRoom: the spliced tree with
`currentOccupancy` recomputed from that tree. -/
def removedHostel (hostel : Hostel) (roomId reg : String) : Hostel :=
  let tree : Hostel := { hostel with
    floors := hostel.floors.map (fun f =>
      { f with rooms := f.rooms.map (removeOccupantFixRoom roomId reg) }) }
  { tree with currentOccupancy := (hostelOccupantSum tree : Int) }

/-- Embeds `removeOccupantFromRoom`: loads the hostel (error when missing),
splices the student out of the matching room (error when no room contained
them), recomputes `currentOccupancy` by summing over the updated tree, writes
the hostel back, and then best-effort revokes the student's latest allocation
when it references this room (failures of that step are swallowed). -/
def removeOccupantFromRoom (db : DB) (hostelId roomId reg : String) :
    DB × Except String Unit :=
  match fetchHostelById db hostelId with
  | none => (db, .error "Hostel not found")
  | some hostel =>
    let occupantRemoved := hostel.floors.any (fun f =>
      f.rooms.any (fun r => r.id = roomId ∧ reg ∈ r.occupants))
    if occupantRemoved then
      let hostel1 := removedHostel hostel roomId reg
      let db1 := updateHostelDoc db hostelId hostel1
      let db2 :=
        match fetchAllocationByStudent db1 reg with
        | some alloc =>
          if alloc.roomId = roomId then (revokeRoomAllocation db1 alloc.id).1 else db1
        | none => db1
      (db2, .ok ())
    else
      (db, .error "Occupant not found in room")

/-! ## Payment lifecycle (appwrite-payment-data.ts) -/

/-- Field updates of the Paid flip: `paymentStatus = Paid` plus the payment
id stamped onto the allocation. -/
def markPaid (paymentId : String) (a : RoomAllocation) : RoomAllocation :=
  { a with paymentStatus := .paid, paymentId := some paymentId }

/-- Embeds the `updateRoomAllocation` call sites that flip the linked
allocation to Paid and stamp the payment id; the update throws when no
allocation document has the id. -/
def updateAllocationPaid (db : DB) (allocationId paymentId : String) :
    DB × Except String Unit :=
  if db.allocations.any (fun a => a.id = allocationId) then
    ({ db with
       allocations := db.allocations.map (fun a =>
         if a.id = allocationId then markPaid paymentId a else a) },
     .ok ())
  else
    (db, .error "Document with the requested ID could not be found")

/-- Field updates of payment approval: status Approved plus approver identity
and timestamp. -/
def approveStamp (adminEmail : String) (now : Int) (q : Payment) : Payment :=
  { q with status := .approved, approvedBy := some adminEmail,
           approvedAt := some now }

/-- Embeds `approvePayment`: reads the payment (throws when absent), marks it
Approved with approver and timestamp, then updates the linked allocation's
paymentStatus to Paid — two separate writes, so a failing allocation update
still leaves the payment Approved. -/
def approvePayment (db : DB) (paymentId adminEmail : String) (now : Int) :
    DB × Except String Unit :=
  match db.payments.find? (fun p => p.id = paymentId) with
  | none => (db, .error "Payment not found")
  | some p =>
    let db1 := { db with
      payments := db.payments.map (fun q =>
        if q.id = paymentId then approveStamp adminEmail now q else q) }
    updateAllocationPaid db1 p.allocationId paymentId

/-- Input fields of a payment submission (id, timestamps and status are
assigned by the operation). -/
structure PaymentInput where
  studentRegNumber : String
  allocationId : String
  receiptNumber : String
  amount : Int
  paymentMethod : String
  notes : String
  deriving DecidableEq

/-- The already-Approved payment document created by addAdminPayment. -/
def mkAdminPayment (pay : PaymentInput) (adminEmail : String) (now : Int)
    (newId : String) : Payment :=
  { id := newId
    studentRegNumber := pay.studentRegNumber
    allocationId := pay.allocationId
    receiptNumber := pay.receiptNumber
    amount := pay.amount
    paymentMethod := pay.paymentMethod
    submittedAt := now
    status := .approved
    approvedBy := some adminEmail
    approvedAt := some now
    rejectionReason := none
    notes := pay.notes }

/-- Embeds `addAdminPayment`: creates an already-Approved payment on behalf of
the student, then updates the linked allocation to Paid with the new payment
id. -/
def addAdminPayment (db : DB) (pay : PaymentInput) (adminEmail : String)
    (now : Int) (newId : String) : DB × Except String String :=
  let newP := mkAdminPayment pay adminEmail now newId
  let db1 := { db with payments := db.payments ++ [newP] }
  let step := updateAllocationPaid db1 pay.allocationId newId
  (step.1, step.2.map (fun _ => newId))

/-- Embeds `rejectPayment`: sets the payment Rejected with reason and
approver fields; the allocation is not touched. -/
def rejectPayment (db : DB) (paymentId adminEmail reason : String)
    (now : Int) : DB × Except String Unit :=
  if db.payments.any (fun p => p.id = paymentId) then
    ({ db with
       payments := db.payments.map (fun p =>
         if p.id = paymentId then
           { p with status := .rejected, approvedBy := some adminEmail,
                    approvedAt := some now, rejectionReason := some reason }
         else p) },
     .ok ())
  else
    (db, .error "Document with the requested ID could not be found")

/-- Embeds `deletePayment`: deletes the payment document; nothing else is
touched. -/
def deletePayment (db : DB) (paymentId : String) : DB × Except String Unit :=
  if db.payments.any (fun p => p.id = paymentId) then
    ({ db with payments := db.payments.filter (fun p => p.id ≠ paymentId) }, .ok ())
  else
    (db, .error "Document with the requested ID could not be found")

/-! ## Invariant checkers -/

/-- Room-level capacity bound `occupants.length <= capacity`. -/
def roomCapOk (r : Room) : Bool :=
  r.occupants.length ≤ r.capacity

/-- Capacity bound across a whole store. -/
def dbCapOk (db : DB) : Bool :=
  db.hostels.all (fun h => h.floors.all (fun f => f.rooms.all roomCapOk))

/-- Occupancy-counter consistency of one hostel:
`currentOccupancy` equals the occupant sum of its tree. -/
def occupancyConsistent (h : Hostel) : Bool :=
  h.currentOccupancy = (hostelOccupantSum h : Int)

/-- Paid-allocation invariant: every Paid allocation has an Approved payment
whose allocationId points at it. -/
def paidInvariant (db : DB) : Bool :=
  db.allocations.all (fun a =>
    a.paymentStatus ≠ PayStatus.paid ∨
      db.payments.any (fun p =>
        p.status = PaymentState.approved ∧ p.allocationId = a.id))

/-! ## Concrete sample data for witnesses and counterexamples -/

/-- Room with the given id, capacity and occupants; remaining fields are
fixed display data. -/
def sampleRoom (id : String) (cap : Nat) (occ : List String) : Room :=
  { id := id, number := id, floor := "G", floorName := "Ground",
    hostelName := "Eagle", price := 100, capacity := cap, occupants := occ,
    gender := "Male", isReserved := false, isAvailable := true, features := [] }

/-- One-floor hostel with the given id, occupancy counter and rooms. -/
def sampleHostel (id : String) (occupancy : Int) (rooms : List Room) : Hostel :=
  { id := id, name := "Eagle", description := "", totalCapacity := 10,
    currentOccupancy := occupancy, gender := "Male",
    floors := [{ id := "f1", number := "0", name := "Ground", rooms := rooms }],
    isActive := true, pricePerSemester := 100, features := [] }

/-- Fixed calendar instant: 2025-09, timestamp 0. -/
def d0 : DateTime := { ms := 0, year := 2025, month := 9 }

/-- Store exhibiting a room already at capacity (capacity 1, one occupant). -/
def fullRoomDB : DB :=
  { hostels := [sampleHostel "h1" 1 [sampleRoom "r1" 1 ["H111111A"]]],
    allocations := [], payments := [], settings := [] }

/-- Store with a consistent occupancy counter (one empty room, counter 0). -/
def occConsistentDB : DB :=
  { hostels := [sampleHostel "h1" 0 [sampleRoom "r1" 2 []]],
    allocations := [], payments := [], settings := [] }

/-- Store for the C3 witness: two occupants, counter in sync, one matching
allocation. -/
def c3db : DB :=
  { hostels := [sampleHostel "h1" 2 [sampleRoom "r1" 2 ["H111111A", "H111111B"]]],
    allocations := [
      { id := "al1", studentRegNumber := "H111111A", roomId := "r1",
        hostelId := "h1", allocatedAt := 0, paymentStatus := .pending,
        paymentDeadline := 100, semester := "Semester 1",
        academicYear := "2025/2026", paymentId := none }],
    payments := [], settings := [] }

/-- Store for the C4 witness: room with two occupants, allocation for one of
them. -/
def c4db : DB :=
  { hostels := [sampleHostel "h1" 2 [sampleRoom "r1" 2 ["H123456X", "H123457X"]]],
    allocations := [
      { id := "al1", studentRegNumber := "H123456X", roomId := "r1",
        hostelId := "h1", allocatedAt := 0, paymentStatus := .pending,
        paymentDeadline := 100, semester := "Semester 1",
        academicYear := "2025/2026", paymentId := none }],
    payments := [], settings := [] }

/-- Store for the C5 witness: settings enable auto-revoke with a 24-hour
grace period; one allocation far from its deadline. -/
def c5db : DB :=
  { hostels := [], payments := [],
    allocations := [
      { id := "al2", studentRegNumber := "H222222B", roomId := "r1",
        hostelId := "h1", allocatedAt := 0, paymentStatus := .pending,
        paymentDeadline := 500000000, semester := "Semester 1",
        academicYear := "2025/2026", paymentId := none }],
    settings := [("hostel-settings",
      { paymentGracePeriod := 24, autoRevokeUnpaidAllocations := true,
        maxRoomCapacity := 4, allowMixedGender := false })] }

/-- Store for the C7 witness: floor "f1" already contains room "A3". -/
def c7db : DB :=
  { hostels := [{ sampleHostel "h1" 0 [sampleRoom "A3" 4 []] with totalCapacity := 10 }],
    allocations := [], payments := [], settings := [] }

/-- Store with a Paid allocation backed by its approved payment — the
paid-allocation invariant holds. -/
def paidDB : DB :=
  { hostels := [],
    allocations := [
      { id := "al1", studentRegNumber := "H123456X", roomId := "r1",
        hostelId := "h1", allocatedAt := 0, paymentStatus := .paid,
        paymentDeadline := 100, semester := "Semester 1",
        academicYear := "2025/2026", paymentId := some "p1" }],
    payments := [
      { id := "p1", studentRegNumber := "H123456X", allocationId := "al1",
        receiptNumber := "R1", amount := 100, paymentMethod := "Bank",
        submittedAt := 0, status := .approved, approvedBy := some "admin@x.com",
        approvedAt := some 1, rejectionReason := none, notes := "" }],
    settings := [] }

/-- Store for the C10 witness: hostel "h1" exists but has no room "rX". -/
def c10db : DB :=
  { hostels := [sampleHostel "h1" 0 [sampleRoom "r9" 2 []]],
    allocations := [], payments := [], settings := [] }

/-! ## General lemmas about the store operations -/

/-- Replacing every id-matching hostel and then searching for that id finds
the replacement exactly when some hostel carried the id. -/
theorem find?_map_ite (l : List Hostel) (hid : String) (h : Hostel)
    (hh : h.id = hid) :
    (l.map (fun g => if g.id = hid then h else g)).find?
        (fun g => g.id = hid) =
      if l.any (fun g => g.id = hid) then some h else none := by
  induction l with
  | nil => rfl
  | cons g rest ih =>
    by_cases hg : g.id = hid
    · simp [List.find?, List.any_cons, hg, hh]
    · simp [List.find?, List.any_cons, hg, ih]

/-- Deleting an allocation document: the allocation list of the revoked state
is the filtered original list (when the allocation is absent the filter is a
no-op, matching the thrown error leaving the store unchanged). -/
theorem revoke_allocations (db : DB) (i : String) :
    (revokeRoomAllocation db i).1.allocations =
      db.allocations.filter (fun x => x.id ≠ i) := by
  unfold revokeRoomAllocation
  cases hf : db.allocations.find? (fun a => a.id = i) with
  | none =>
    have : ∀ x ∈ db.allocations, ¬ (x.id = i) := by
      intro x hx
      have := List.find?_eq_none.mp hf x hx
      simpa using this
    simp only
    rw [List.filter_eq_self.mpr]
    intro x hx
    simpa using this x hx
  | some a =>
    cases hH : fetchHostelById db a.hostelId <;> simp [updateHostelDoc, hH]

/-- Revocation never touches the SETTINGS collection. -/
theorem revoke_settings (db : DB) (i : String) :
    (revokeRoomAllocation db i).1.settings = db.settings := by
  unfold revokeRoomAllocation
  cases hf : db.allocations.find? (fun a => a.id = i) with
  | none => rfl
  | some a => cases hH : fetchHostelById db a.hostelId <;> simp [updateHostelDoc, hH]

/-- Revocation never touches the PAYMENTS collection. -/
theorem revoke_payments (db : DB) (i : String) :
    (revokeRoomAllocation db i).1.payments = db.payments := by
  unfold revokeRoomAllocation
  cases hf : db.allocations.find? (fun a => a.id = i) with
  | none => rfl
  | some a => cases hH : fetchHostelById db a.hostelId <;> simp [updateHostelDoc, hH]

/-- State component of `revokeAll` is the plain fold of single revocations. -/
theorem revokeAll_fst (ids : List String) (db : DB) (n : Nat) :
    (ids.foldl
      (fun acc i =>
        let step := revokeRoomAllocation acc.1 i
        (step.1, acc.2 + match step.2 with | .ok _ => 1 | .error _ => 0))
      (db, n)).1 =
      ids.foldl (fun d i => (revokeRoomAllocation d i).1) db := by
  induction ids generalizing db n with
  | nil => rfl
  | cons i rest ih => simpa using ih (revokeRoomAllocation db i).1 _

/-- Membership in the allocation list after a batch revocation: a document
survives exactly when it was present and its id is not in the batch. -/
theorem revokeAll_mem_allocations (ids : List String) (db : DB)
    (x : RoomAllocation) :
    x ∈ (revokeAll db ids).1.allocations ↔
      x ∈ db.allocations ∧ x.id ∉ ids := by
  unfold revokeAll
  rw [revokeAll_fst]
  induction ids generalizing db with
  | nil => simp
  | cons i rest ih =>
    simp only [List.foldl_cons]
    rw [ih]
    constructor
    · rintro ⟨hx, hni⟩
      rw [revoke_allocations] at hx
      have hx' := List.mem_filter.mp hx
      refine ⟨hx'.1, ?_⟩
      simp only [List.mem_cons, not_or]
      exact ⟨by simpa using hx'.2, hni⟩
    · rintro ⟨hx, hni⟩
      simp only [List.mem_cons, not_or] at hni
      refine ⟨?_, hni.2⟩
      rw [revoke_allocations]
      exact List.mem_filter.mpr ⟨hx, by simpa using hni.1⟩

/-- Batch revocation never touches the SETTINGS collection. -/
theorem revokeAll_settings (ids : List String) (db : DB) :
    (revokeAll db ids).1.settings = db.settings := by
  unfold revokeAll
  rw [revokeAll_fst]
  induction ids generalizing db with
  | nil => rfl
  | cons i rest ih => simpa [revoke_settings] using ih (revokeRoomAllocation db i).1

/-- Hostel list produced by allocateRoom: the id-matching hostel gets the
occupant pushed when the hostel document loads; otherwise nothing changes. -/
theorem allocateRoom_hostels (db : DB) (reg roomId hostelId newId : String)
    (d : DateTime) :
    (allocateRoom db reg roomId hostelId newId d).1.hostels =
      match fetchHostelById db hostelId with
      | some h =>
        db.hostels.map (fun g =>
          if g.id = hostelId then allocateUpdateTree reg roomId h else g)
      | none => db.hostels := by
  unfold allocateRoom fetchHostelById updateHostelDoc
  simp only
  cases db.hostels.find? (fun h => h.id = hostelId) <;> rfl

/-- Allocation list produced by allocateRoom: the created record is appended,
whatever happens to the hostel tree. -/
theorem allocateRoom_allocations (db : DB) (reg roomId hostelId newId : String)
    (d : DateTime) :
    (allocateRoom db reg roomId hostelId newId d).1.allocations =
      db.allocations ++ [(allocateRoom db reg roomId hostelId newId d).2] := by
  unfold allocateRoom fetchHostelById updateHostelDoc
  simp only
  cases db.hostels.find? (fun h => h.id = hostelId) <;> rfl

/-- Returned record of allocateRoom, by unfolding. -/
theorem allocateRoom_snd (db : DB) (reg roomId hostelId newId : String)
    (d : DateTime) :
    (allocateRoom db reg roomId hostelId newId d).2 =
      mkAllocation reg roomId hostelId newId d
        (fetchHostelSettings db).paymentGracePeriod := rfl

/-! ## C1 -/

/-- C1: every successful allocateRoom call creates a record with
paymentStatus Pending, paymentDeadline equal to the allocation time plus the
settings' grace period in hours, semester "Semester 1" for calendar months
8-12 and 1 and "Semester 2" for months 2-7, and academic year "year/year+1"
from August on, otherwise "year-1/year". -/
theorem allocateRoom_record_fields (db : DB) (reg roomId hostelId newId : String)
    (d : DateTime) (hlo : 1 ≤ d.month) (hhi : d.month ≤ 12) :
    (allocateRoom db reg roomId hostelId newId d).2.paymentStatus = PayStatus.pending ∧
    (allocateRoom db reg roomId hostelId newId d).2.paymentDeadline =
      (allocateRoom db reg roomId hostelId newId d).2.allocatedAt +
        (fetchHostelSettings db).paymentGracePeriod * 60 * 60 * 1000 ∧
    ((8 ≤ d.month ∧ d.month ≤ 12) ∨ d.month = 1 →
      (allocateRoom db reg roomId hostelId newId d).2.semester = "Semester 1") ∧
    (2 ≤ d.month ∧ d.month ≤ 7 →
      (allocateRoom db reg roomId hostelId newId d).2.semester = "Semester 2") ∧
    (8 ≤ d.month →
      (allocateRoom db reg roomId hostelId newId d).2.academicYear =
        toString d.year ++ "/" ++ toString (d.year + 1)) ∧
    (d.month < 8 →
      (allocateRoom db reg roomId hostelId newId d).2.academicYear =
        toString (d.year - 1) ++ "/" ++ toString d.year) := by
  refine ⟨rfl, rfl, ?_, ?_, ?_, ?_⟩
  · intro h
    show getCurrentSemester d = "Semester 1"
    unfold getCurrentSemester
    rw [if_pos]
    omega
  · intro h
    show getCurrentSemester d = "Semester 2"
    unfold getCurrentSemester
    rw [if_neg]
    omega
  · intro h
    show getCurrentAcademicYear d = _
    unfold getCurrentAcademicYear
    rw [if_pos h]
  · intro h
    show getCurrentAcademicYear d = _
    unfold getCurrentAcademicYear
    rw [if_neg]
    omega

/-- Witness for C1 at a concrete September 2025 instant. -/
theorem allocateRoom_record_fields_witness :
    (allocateRoom { hostels := [], allocations := [], payments := [], settings := [] }
        "H230001X" "r1" "h1" "a1" d0).2.paymentStatus = PayStatus.pending ∧
    (allocateRoom { hostels := [], allocations := [], payments := [], settings := [] }
        "H230001X" "r1" "h1" "a1" d0).2.semester = "Semester 1" := by
  have h := allocateRoom_record_fields
    { hostels := [], allocations := [], payments := [], settings := [] }
    "H230001X" "r1" "h1" "a1" d0 (by decide) (by decide)
  exact ⟨h.1, h.2.2.1 (by decide)⟩

/-! ## C2 -/

/-- C2 counterexample: allocateRoom performs no capacity check, so allocating
into the capacity-1 room that already holds one occupant pushes a second
occupant and violates `occupants.length <= capacity`. -/
theorem allocateRoom_overfills_full_room :
    dbCapOk fullRoomDB = true ∧
    dbCapOk (allocateRoom fullRoomDB "H222222B" "r1" "h1" "a2" d0).1 = false := by
  decide

/-- C2 amended: allocateRoom preserves the capacity bound whenever every room
satisfies it beforehand and every room carrying the target id is strictly
below capacity; with the target room already at capacity the occupant is
pushed anyway and the bound breaks. -/
theorem allocateRoom_preserves_capacity_when_below (db : DB)
    (reg roomId hostelId newId : String) (d : DateTime)
    (h : ∀ H ∈ db.hostels, ∀ f ∈ H.floors, ∀ r ∈ f.rooms,
      r.occupants.length ≤ r.capacity ∧
        (r.id = roomId → r.occupants.length < r.capacity)) :
    dbCapOk (allocateRoom db reg roomId hostelId newId d).1 = true := by
  have key : ∀ r : Room, r.occupants.length ≤ r.capacity →
      (r.id = roomId → r.occupants.length < r.capacity) →
      roomCapOk (allocatePushRoom reg roomId r) = true := by
    intro r h1 h2
    unfold allocatePushRoom roomCapOk
    split
    next hid =>
      have := h2 hid
      simp only [List.length_append, List.length_cons, List.length_nil]
      simpa using this
    next => simpa using h1
  rw [dbCapOk, List.all_eq_true]
  intro H' hH'
  rw [List.all_eq_true]
  intro f' hf'
  rw [List.all_eq_true]
  intro r' hr'
  rw [allocateRoom_hostels] at hH'
  cases hfetch : fetchHostelById db hostelId with
  | none =>
    rw [hfetch] at hH'
    have h1 := (h H' hH' f' hf' r' hr').1
    simpa [roomCapOk] using h1
  | some H =>
    rw [hfetch] at hH'
    rcases List.mem_map.mp hH' with ⟨g, hg, hgeq⟩
    by_cases hid : g.id = hostelId
    · rw [if_pos hid] at hgeq
      subst hgeq
      have hHmem : H ∈ db.hostels := List.mem_of_find?_eq_some hfetch
      unfold allocateUpdateTree at hf'
      rcases List.mem_map.mp hf' with ⟨f, hf, hfeq⟩
      subst hfeq
      rcases List.mem_map.mp hr' with ⟨r, hr, hreq⟩
      subst hreq
      exact key r (h H hHmem f hf r hr).1 (h H hHmem f hf r hr).2
    · rw [if_neg hid] at hgeq
      subst hgeq
      have h1 := (h g hg f' hf' r' hr').1
      simpa [roomCapOk] using h1

/-- Witness for the amended C2 on a store whose target room has spare
capacity. -/
theorem allocateRoom_preserves_capacity_when_below_witness :
    dbCapOk (allocateRoom
      { hostels := [sampleHostel "h1" 1 [sampleRoom "r1" 2 ["H111111A"]]],
        allocations := [], payments := [], settings := [] }
      "H222222B" "r1" "h1" "a2" d0).1 = true := by
  apply allocateRoom_preserves_capacity_when_below
  decide

/-! ## C3 -/

/-- Documents with distinct keys are equal when their keys agree. -/
theorem eq_of_nodup_map {α β : Type} (f : α → β) {l : List α}
    (hnd : (l.map f).Nodup) {a b : α} (ha : a ∈ l) (hb : b ∈ l)
    (hf : f a = f b) : a = b := by
  by_contra hne
  have hp : l.Pairwise (fun x y => f x ≠ f y) := List.pairwise_map.mp hnd
  have hsymm : Symmetric (fun x y : α => f x ≠ f y) := by
    intro x y hxy e
    exact hxy e.symm
  exact hp.forall hsymm ha hb hne hf

/-- Hostel list produced by revokeRoomAllocation. -/
theorem revoke_hostels (db : DB) (i : String) :
    (revokeRoomAllocation db i).1.hostels =
      match db.allocations.find? (fun a => a.id = i) with
      | none => db.hostels
      | some a =>
        match fetchHostelById db a.hostelId with
        | some h =>
          db.hostels.map (fun g =>
            if g.id = a.hostelId then
              revokeUpdateTree a.studentRegNumber a.roomId h
            else g)
        | none => db.hostels := by
  unfold revokeRoomAllocation updateHostelDoc
  cases db.allocations.find? (fun a => a.id = i) with
  | none => rfl
  | some a => cases hf : fetchHostelById db a.hostelId <;> simp [hf]

/-- C3 counterexample: allocateRoom appends an occupant but never recomputes
currentOccupancy, so the counter stays 0 while the occupant sum becomes 1. -/
theorem allocateRoom_breaks_occupancy_counter :
    (occConsistentDB.hostels.all occupancyConsistent) = true ∧
    ((allocateRoom occConsistentDB "H123456X" "r1" "h1" "a1" d0).1.hostels.all
      occupancyConsistent) = false := by
  decide

/-- Splicing out the only occurrence leaves a list free of the element. -/
theorem removeFirstOccurrence_not_mem (l : List String) (reg : String)
    (h : l.count reg ≤ 1) : reg ∉ removeFirstOccurrence l reg := by
  induction l with
  | nil => simp [removeFirstOccurrence]
  | cons x xs ih =>
    unfold removeFirstOccurrence
    by_cases hx : x = reg
    · rw [if_pos hx]
      subst hx
      rw [List.count_cons_self] at h
      have : xs.count x = 0 := by omega
      exact (List.count_eq_zero).mp this
    · rw [if_neg hx]
      intro hmem
      rcases List.mem_cons.mp hmem with h1 | h1
      · exact hx h1.symm
      · have hc : xs.count reg ≤ 1 := by
          rw [List.count_cons_of_ne (Ne.symm hx)] at h
          exact h
        exact ih hc h1

/-- After removeOccupantFromRoom's splice, a room carrying the target id no
longer contains the student (given the student appeared at most once). -/
theorem removeOccupantFixRoom_no_reg (roomId reg : String) (r : Room)
    (hc : r.occupants.count reg ≤ 1) :
    (removeOccupantFixRoom roomId reg r).id = roomId →
      reg ∉ (removeOccupantFixRoom roomId reg r).occupants := by
  unfold removeOccupantFixRoom
  split
  next h =>
    intro _
    exact removeFirstOccurrence_not_mem r.occupants reg hc
  next h =>
    intro hid hmem
    exact h ⟨hid, hmem⟩

/-- The splice preserves the room id. -/
theorem removeOccupantFixRoom_id (roomId reg : String) (r : Room) :
    (removeOccupantFixRoom roomId reg r).id = r.id := by
  unfold removeOccupantFixRoom
  split <;> rfl

/-- Revocation's occupant filter does not change the length of a room that no
longer contains the student. -/
theorem revokeFixRoom_length (reg roomId : String) (r : Room)
    (hno : r.id = roomId → reg ∉ r.occupants) :
    ((revokeFixRoom reg roomId r).occupants).length = r.occupants.length := by
  unfold revokeFixRoom
  split
  next hid =>
    simp only
    rw [List.filter_eq_self.mpr]
    intro x hx
    simp only [decide_eq_true_eq]
    intro he
    exact hno hid (he ▸ hx)
  next => rfl

/-- The latest-allocation lookup returns a stored allocation of that
student. -/
theorem fetchAllocationByStudent_mem (db : DB) (reg : String)
    (a : RoomAllocation) (h : fetchAllocationByStudent db reg = some a) :
    a ∈ db.allocations ∧ a.studentRegNumber = reg := by
  unfold fetchAllocationByStudent at h
  have key : ∀ (l : List RoomAllocation) (init : Option RoomAllocation),
      l.foldl
        (fun best x =>
          match best with
          | none => some x
          | some b => if b.allocatedAt < x.allocatedAt then some x else some b)
        init = some a →
      a ∈ l ∨ init = some a := by
    intro l
    induction l with
    | nil =>
      intro init h
      exact Or.inr h
    | cons x xs ih =>
      intro init h
      rcases ih _ h with h1 | h1
      · exact Or.inl (List.mem_cons_of_mem _ h1)
      · cases init with
        | none =>
          simp only at h1
          exact Or.inl (List.mem_cons.mpr (Or.inl (Option.some.inj h1).symm))
        | some b =>
          simp only at h1
          by_cases hlt : b.allocatedAt < x.allocatedAt
          · rw [if_pos hlt] at h1
            exact Or.inl (List.mem_cons.mpr (Or.inl (Option.some.inj h1).symm))
          · rw [if_neg hlt] at h1
            exact Or.inr h1
  rcases key _ _ h with h1 | h1
  · have h2 := List.mem_filter.mp h1
    exact ⟨h2.1, by simpa using h2.2⟩
  · cases h1

/-- The written-back hostel keeps its id. -/
theorem removedHostel_id (hostel : Hostel) (roomId reg : String) :
    (removedHostel hostel roomId reg).id = hostel.id := rfl

/-- The written-back hostel satisfies the counter-equals-sum equation by
construction. -/
theorem removedHostel_consistent (hostel : Hostel) (roomId reg : String) :
    occupancyConsistent (removedHostel hostel roomId reg) = true := by
  simp [occupancyConsistent, removedHostel, hostelOccupantSum]

/-- Among the hostels of an id-targeted write, the one carrying the id is the
written document. -/
theorem mem_map_update_id (l : List Hostel) (hid : String) (h₁ h' : Hostel)
    (hmem : h' ∈ l.map (fun g => if g.id = hid then h₁ else g))
    (hid' : h'.id = hid) : h' = h₁ := by
  rcases List.mem_map.mp hmem with ⟨g, _, hgeq⟩
  by_cases hg : g.id = hid
  · rw [if_pos hg] at hgeq
    exact hgeq.symm
  · rw [if_neg hg] at hgeq
    exact absurd (hgeq ▸ hid') hg

/-- A hostel whose id differs from the write target is untouched by the
write. -/
theorem mem_map_update_other (l : List Hostel) (xid : String) (T h' : Hostel)
    (hmem : h' ∈ l.map (fun g => if g.id = xid then T else g))
    (hT : T.id ≠ h'.id) : h' ∈ l := by
  rcases List.mem_map.mp hmem with ⟨g, hg, hgeq⟩
  by_cases hgid : g.id = xid
  · rw [if_pos hgid] at hgeq
    exact absurd (congrArg Hostel.id hgeq) hT
  · rw [if_neg hgid] at hgeq
    exact hgeq ▸ hg

/-- Revoking the student's allocation right after the splice does not change
any occupant count: the student is already gone from every id-matching room,
provided each room held the student at most once. -/
theorem revokeUpdateTree_of_removed_sum (hostel : Hostel) (roomId reg : String)
    (hcount : ∀ f ∈ hostel.floors, ∀ r ∈ f.rooms, r.occupants.count reg ≤ 1) :
    hostelOccupantSum (revokeUpdateTree reg roomId (removedHostel hostel roomId reg)) =
      hostelOccupantSum (removedHostel hostel roomId reg) := by
  unfold hostelOccupantSum revokeUpdateTree removedHostel
  simp only [List.map_map]
  apply congrArg
  apply List.map_congr_left
  intro f hf
  simp only [Function.comp]
  apply congrArg
  simp only [List.map_map]
  apply List.map_congr_left
  intro r hr
  simp only [Function.comp]
  apply revokeFixRoom_length
  exact removeOccupantFixRoom_no_reg roomId reg r (hcount f hf r hr)

/-- Result state of a successful removeOccupantFromRoom, spelt out. -/
theorem removeOccupant_result (db : DB) (hostelId roomId reg : String)
    (H : Hostel) (hH : fetchHostelById db hostelId = some H)
    (hflag : H.floors.any (fun f =>
      f.rooms.any (fun r => r.id = roomId ∧ reg ∈ r.occupants)) = true) :
    (removeOccupantFromRoom db hostelId roomId reg).1 =
      (match fetchAllocationByStudent
          (updateHostelDoc db hostelId (removedHostel H roomId reg)) reg with
       | some alloc =>
         if alloc.roomId = roomId then
           (revokeRoomAllocation
             (updateHostelDoc db hostelId (removedHostel H roomId reg)) alloc.id).1
         else updateHostelDoc db hostelId (removedHostel H roomId reg)
       | none => updateHostelDoc db hostelId (removedHostel H roomId reg)) := by
  unfold removeOccupantFromRoom
  rw [hH]
  simp only [hflag, if_true]

/-- C3 amended: the counter-equals-sum equation is maintained only by
removeOccupantFromRoom, which recomputes the counter; allocateRoom and
revokeRoomAllocation change occupant lists but leave every hostel's
currentOccupancy untouched, so the equality does not in general hold after
them. -/
theorem occupancy_counter_amended (db : DB)
    (reg roomId hostelId newId allocId : String) (d : DateTime)
    (hndH : (db.hostels.map Hostel.id).Nodup)
    (hndA : (db.allocations.map RoomAllocation.id).Nodup) :
    (allocateRoom db reg roomId hostelId newId d).1.hostels.map Hostel.currentOccupancy
        = db.hostels.map Hostel.currentOccupancy ∧
    (revokeRoomAllocation db allocId).1.hostels.map Hostel.currentOccupancy
        = db.hostels.map Hostel.currentOccupancy ∧
    (∀ H, fetchHostelById db hostelId = some H →
      (∀ f ∈ H.floors, ∀ r ∈ f.rooms, r.occupants.count reg ≤ 1) →
      H.floors.any (fun f =>
        f.rooms.any (fun r => r.id = roomId ∧ reg ∈ r.occupants)) = true →
      ∀ h' ∈ (removeOccupantFromRoom db hostelId roomId reg).1.hostels,
        h'.id = hostelId → occupancyConsistent h' = true) := by
  refine ⟨?_, ?_, ?_⟩
  · rw [allocateRoom_hostels]
    cases hfetch : fetchHostelById db hostelId with
    | none => rfl
    | some H =>
      have hHid : H.id = hostelId := by simpa using List.find?_some hfetch
      rw [List.map_map]
      apply List.map_congr_left
      intro g hg
      by_cases hid : g.id = hostelId
      · have hHmem : H ∈ db.hostels := List.mem_of_find?_eq_some hfetch
        have hgH : g = H := eq_of_nodup_map Hostel.id hndH hg hHmem (by rw [hid, hHid])
        simp [Function.comp, hid, hgH, hHid, allocateUpdateTree]
      · simp [Function.comp, hid]
  · rw [revoke_hostels]
    cases hfind : db.allocations.find? (fun a => a.id = allocId) with
    | none => rfl
    | some a =>
      simp only
      cases hfetch : fetchHostelById db a.hostelId with
      | none => simp [hfetch]
      | some H =>
        simp only [hfetch]
        have hHid : H.id = a.hostelId := by simpa using List.find?_some hfetch
        rw [List.map_map]
        apply List.map_congr_left
        intro g hg
        by_cases hid : g.id = a.hostelId
        · have hHmem : H ∈ db.hostels := List.mem_of_find?_eq_some hfetch
          have hgH : g = H := eq_of_nodup_map Hostel.id hndH hg hHmem (by rw [hid, hHid])
          simp [Function.comp, hid, hgH, hHid, revokeUpdateTree]
        · simp [Function.comp, hid]
  · intro H hH hcount hflag h' hh' hid'
    have hHid : H.id = hostelId := by simpa using List.find?_some hH
    have h₁id : (removedHostel H roomId reg).id = hostelId := by
      rw [removedHostel_id]; exact hHid
    rw [removeOccupant_result db hostelId roomId reg H hH hflag] at hh'
    set h₁ := removedHostel H roomId reg with hh₁
    set db1 := updateHostelDoc db hostelId h₁ with hdb1
    have hdb1hostels : db1.hostels =
        db.hostels.map (fun g => if g.id = hostelId then h₁ else g) := rfl
    cases hfa : fetchAllocationByStudent db1 reg with
    | none =>
      rw [hfa] at hh'
      simp only [hdb1hostels] at hh'
      have : h' = h₁ := mem_map_update_id db.hostels hostelId h₁ h' hh' hid'
      rw [this, hh₁]
      exact removedHostel_consistent H roomId reg
    | some alloc =>
      rw [hfa] at hh'
      simp only at hh'
      have halloc := fetchAllocationByStudent_mem db1 reg alloc hfa
      have hallocMem : alloc ∈ db.allocations := halloc.1
      have hallocReg : alloc.studentRegNumber = reg := halloc.2
      by_cases hrid : alloc.roomId = roomId
      · rw [if_pos hrid] at hh'
        rw [revoke_hostels] at hh'
        have hdb1alloc : db1.allocations = db.allocations := rfl
        cases hfind : db1.allocations.find? (fun x => x.id = alloc.id) with
        | none =>
          exfalso
          have := List.find?_eq_none.mp hfind alloc (hdb1alloc ▸ hallocMem)
          simp at this
        | some astar =>
          rw [hfind] at hh'
          simp only at hh'
          have hastarMem : astar ∈ db.allocations := by
            have := List.mem_of_find?_eq_some hfind
            rwa [hdb1alloc] at this
          have hastarId : astar.id = alloc.id := by simpa using List.find?_some hfind
          have hastar : astar = alloc :=
            eq_of_nodup_map RoomAllocation.id hndA hastarMem hallocMem hastarId
          subst hastar
          by_cases hhid2 : astar.hostelId = hostelId
          · rw [hhid2] at hh'
            have hfetch1 : fetchHostelById db1 hostelId = some h₁ := by
              show (db1.hostels).find? (fun h => h.id = hostelId) = some h₁
              rw [hdb1hostels]
              rw [find?_map_ite db.hostels hostelId h₁ h₁id]
              rw [if_pos]
              rw [List.any_eq_true]
              refine ⟨H, List.mem_of_find?_eq_some hH, by simpa using hHid⟩
            rw [hfetch1] at hh'
            simp only at hh'
            have hcomp : db1.hostels.map (fun g =>
                if g.id = hostelId then
                  revokeUpdateTree astar.studentRegNumber astar.roomId h₁
                else g) =
                db.hostels.map (fun g =>
                  if g.id = hostelId then
                    revokeUpdateTree astar.studentRegNumber astar.roomId h₁
                  else g) := by
              rw [hdb1hostels]
              rw [List.map_map]
              apply List.map_congr_left
              intro g _
              by_cases hg : g.id = hostelId
              · simp [Function.comp, hg, h₁id]
              · simp [Function.comp, hg]
            rw [hcomp] at hh'
            have heq : h' = revokeUpdateTree astar.studentRegNumber astar.roomId h₁ :=
              mem_map_update_id db.hostels hostelId _ h' hh' hid'
            rw [heq, hallocReg, hrid, hh₁]
            unfold occupancyConsistent
            rw [revokeUpdateTree_of_removed_sum H roomId reg hcount]
            have hco : (revokeUpdateTree reg roomId (removedHostel H roomId reg)).currentOccupancy =
                (removedHostel H roomId reg).currentOccupancy := rfl
            rw [hco]
            have hcons := removedHostel_consistent H roomId reg
            unfold occupancyConsistent at hcons
            exact hcons
          · cases hfetch2 : fetchHostelById db1 astar.hostelId with
            | none =>
              rw [hfetch2] at hh'
              simp only [hdb1hostels] at hh'
              have : h' = h₁ := mem_map_update_id db.hostels hostelId h₁ h' hh' hid'
              rw [this, hh₁]
              exact removedHostel_consistent H roomId reg
            | some H₂ =>
              rw [hfetch2] at hh'
              simp only at hh'
              have hH₂id : H₂.id = astar.hostelId := by
                simpa using List.find?_some hfetch2
              have hTid : (revokeUpdateTree astar.studentRegNumber astar.roomId H₂).id ≠ h'.id := by
                show H₂.id ≠ h'.id
                rw [hH₂id, hid']
                exact hhid2
              have hmem1 : h' ∈ db1.hostels :=
                mem_map_update_other db1.hostels astar.hostelId _ h' hh' hTid
              rw [hdb1hostels] at hmem1
              have : h' = h₁ := mem_map_update_id db.hostels hostelId h₁ h' hmem1 hid'
              rw [this, hh₁]
              exact removedHostel_consistent H roomId reg
      · rw [if_neg hrid] at hh'
        simp only [hdb1hostels] at hh'
        have : h' = h₁ := mem_map_update_id db.hostels hostelId h₁ h' hh' hid'
        rw [this, hh₁]
        exact removedHostel_consistent H roomId reg

/-- Witness for the amended C3: after removing an occupant the written hostel
has a counter equal to its occupant sum, and allocateRoom leaves counters
untouched. -/
theorem occupancy_counter_amended_witness :
    occupancyConsistent (sampleHostel "h1" 1 [sampleRoom "r1" 2 ["H111111B"]]) = true ∧
    (allocateRoom c3db "H111111C" "r1" "h1" "n1" d0).1.hostels.map Hostel.currentOccupancy
      = c3db.hostels.map Hostel.currentOccupancy := by
  have h := occupancy_counter_amended c3db "H111111A" "r1" "h1" "n1" "al1" d0
    (by decide) (by decide)
  refine ⟨?_, h.1⟩
  exact h.2.2 (sampleHostel "h1" 2 [sampleRoom "r1" 2 ["H111111A", "H111111B"]])
    (by decide) (by decide) (by decide)
    (sampleHostel "h1" 1 [sampleRoom "r1" 2 ["H111111B"]])
    (by decide) (by decide)

/-! ## C4 -/

/-- C4: revoking an existing allocation whose hostel loads removes the
student's registration number from every id-matching room's occupant list and
forces `isAvailable = true` on that room unconditionally, and deletes the
allocation record. -/
theorem revoke_removes_student_and_reopens (db : DB) (allocId : String)
    (a : RoomAllocation) (H : Hostel)
    (hfind : db.allocations.find? (fun x => x.id = allocId) = some a)
    (hH : fetchHostelById db a.hostelId = some H) :
    (∀ x ∈ (revokeRoomAllocation db allocId).1.allocations, x.id ≠ allocId) ∧
    ∀ h' ∈ (revokeRoomAllocation db allocId).1.hostels, h'.id = a.hostelId →
      ∀ f' ∈ h'.floors, ∀ r' ∈ f'.rooms, r'.id = a.roomId →
        r'.isAvailable = true ∧ a.studentRegNumber ∉ r'.occupants ∧
        ∃ f ∈ H.floors, ∃ r ∈ f.rooms, r.id = a.roomId ∧
          r'.occupants = r.occupants.filter (fun occ => occ ≠ a.studentRegNumber) := by
  constructor
  · intro x hx
    rw [revoke_allocations] at hx
    have := (List.mem_filter.mp hx).2
    simpa using this
  · intro h' hh' hid' f' hf' r' hr' hrid'
    rw [revoke_hostels, hfind] at hh'
    simp only [hH] at hh'
    have hHid : H.id = a.hostelId := by simpa using List.find?_some hH
    have hT : h' = revokeUpdateTree a.studentRegNumber a.roomId H :=
      mem_map_update_id db.hostels a.hostelId _ h' hh' hid'
    rw [hT] at hf'
    unfold revokeUpdateTree at hf'
    rcases List.mem_map.mp hf' with ⟨f, hf, hfeq⟩
    rw [← hfeq] at hr'
    rcases List.mem_map.mp hr' with ⟨r, hr, hreq⟩
    unfold revokeFixRoom at hreq
    by_cases hrid : r.id = a.roomId
    · rw [if_pos hrid] at hreq
      refine ⟨by rw [← hreq], ?_, f, hf, r, hr, hrid, by rw [← hreq]⟩
      rw [← hreq]
      intro hmem
      have := (List.mem_filter.mp hmem).2
      simp at this
    · rw [if_neg hrid] at hreq
      exact absurd (hreq ▸ hrid') hrid

/-- Witness for C4: the room keeps its other occupant yet is forced
available, and the student is gone. -/
theorem revoke_removes_student_and_reopens_witness :
    (sampleRoom "r1" 2 ["H123457X"]).isAvailable = true ∧
    "H123456X" ∉ (sampleRoom "r1" 2 ["H123457X"]).occupants := by
  have h := revoke_removes_student_and_reopens c4db "al1"
    { id := "al1", studentRegNumber := "H123456X", roomId := "r1",
      hostelId := "h1", allocatedAt := 0, paymentStatus := .pending,
      paymentDeadline := 100, semester := "Semester 1",
      academicYear := "2025/2026", paymentId := none }
    (sampleHostel "h1" 2 [sampleRoom "r1" 2 ["H123456X", "H123457X"]])
    (by decide) (by decide)
  have h2 := h.2 (sampleHostel "h1" 2 [sampleRoom "r1" 2 ["H123457X"]])
    (by decide) (by decide)
    { id := "f1", number := "0", name := "Ground",
      rooms := [sampleRoom "r1" 2 ["H123457X"]] }
    (by decide)
    (sampleRoom "r1" 2 ["H123457X"])
    (by decide) (by decide)
  exact ⟨h2.1, h2.2.1⟩

/-! ## C5 -/

/-- State and response of an authorised, store-healthy sweep call, spelt
out. -/
theorem postSweep_auth_state (db : DB) (tok : String) (now : Int) :
    postSweep db (some ("Bearer " ++ tok)) tok false now =
      (if (getHostelSettings db).autoRevokeUnpaidAllocations then
        (let expired := db.allocations.filter
          (sweepExpired (getHostelSettings db).paymentGracePeriod now)
         let step := revokeAll db (expired.map (fun a => a.id))
         (step.1,
          { status := 200, message := "Payment deadline check completed",
            totalExpired := some expired.length, revokedCount := some step.2 }))
      else
        (db, { status := 200, message := "Auto-revoke is disabled",
               totalExpired := none, revokedCount := some 0 })) := by
  unfold postSweep
  rw [if_pos (show bearerOk (some ("Bearer " ++ tok)) tok = true by simp [bearerOk])]
  rfl

/-- C5: with auto-revoke enabled, an authorised sweep revokes an allocation
exactly when it is Pending or Overdue and the current time is strictly past
`paymentDeadline` plus the grace period in hours (a second grace window on
top of the stored deadline); allocations short of that point survive
unchanged. -/
theorem postSweep_revokes_exactly (db : DB) (tok : String) (now : Int)
    (hauto : (getHostelSettings db).autoRevokeUnpaidAllocations = true)
    (hnd : (db.allocations.map RoomAllocation.id).Nodup) :
    ∀ a ∈ db.allocations,
      (((a.paymentStatus = PayStatus.pending ∨ a.paymentStatus = PayStatus.overdue) ∧
          a.paymentDeadline +
            (getHostelSettings db).paymentGracePeriod * 60 * 60 * 1000 < now) →
        ∀ x ∈ (postSweep db (some ("Bearer " ++ tok)) tok false now).1.allocations,
          x.id ≠ a.id) ∧
      (¬((a.paymentStatus = PayStatus.pending ∨ a.paymentStatus = PayStatus.overdue) ∧
          a.paymentDeadline +
            (getHostelSettings db).paymentGracePeriod * 60 * 60 * 1000 < now) →
        a ∈ (postSweep db (some ("Bearer " ++ tok)) tok false now).1.allocations) := by
  intro a ha
  have hstate := postSweep_auth_state db tok now
  rw [if_pos hauto] at hstate
  have hexp : ∀ b : RoomAllocation,
      sweepExpired (getHostelSettings db).paymentGracePeriod now b = true ↔
        ((b.paymentStatus = PayStatus.pending ∨ b.paymentStatus = PayStatus.overdue) ∧
          b.paymentDeadline +
            (getHostelSettings db).paymentGracePeriod * 60 * 60 * 1000 < now) := by
    intro b
    simp [sweepExpired]
  constructor
  · intro hex x hx
    rw [hstate] at hx
    simp only at hx
    rw [revokeAll_mem_allocations] at hx
    intro hxa
    apply hx.2
    rw [hxa]
    rw [List.mem_map]
    refine ⟨a, ?_, rfl⟩
    rw [List.mem_filter]
    exact ⟨ha, (hexp a).mpr hex⟩
  · intro hnex
    rw [hstate]
    simp only
    rw [revokeAll_mem_allocations]
    refine ⟨ha, ?_⟩
    intro hid
    rcases List.mem_map.mp hid with ⟨b, hb, hbid⟩
    have hbmem := (List.mem_filter.mp hb).1
    have hbexp := (List.mem_filter.mp hb).2
    have hba : b = a := eq_of_nodup_map RoomAllocation.id hnd hbmem ha hbid
    exact hnex ((hexp a).mp (hba ▸ hbexp))

/-- Witness for C5: the unexpired allocation survives the authorised sweep. -/
theorem postSweep_revokes_exactly_witness :
    ({ id := "al2", studentRegNumber := "H222222B", roomId := "r1",
       hostelId := "h1", allocatedAt := 0, paymentStatus := .pending,
       paymentDeadline := 500000000, semester := "Semester 1",
       academicYear := "2025/2026", paymentId := none } : RoomAllocation) ∈
      (postSweep c5db (some ("Bearer " ++ "t")) "t" false 86400001).1.allocations := by
  have h := postSweep_revokes_exactly c5db "t" 86400001 (by decide) (by decide)
  exact (h _ (by decide)).2 (by decide)

/-! ## C6 -/

/-- Every allocation surviving an authorised sweep fails the expiry test that
the sweep applies. -/
theorem postSweep_no_expired_left (db : DB) (tok : String) (now : Int)
    (hauto : (getHostelSettings db).autoRevokeUnpaidAllocations = true) :
    ∀ x ∈ (postSweep db (some ("Bearer " ++ tok)) tok false now).1.allocations,
      sweepExpired (getHostelSettings db).paymentGracePeriod now x = false := by
  intro x hx
  have hstate := postSweep_auth_state db tok now
  rw [if_pos hauto] at hstate
  rw [hstate] at hx
  simp only at hx
  rw [revokeAll_mem_allocations] at hx
  by_contra hxe
  rw [Bool.not_eq_false] at hxe
  apply hx.2
  rw [List.mem_map]
  exact ⟨x, List.mem_filter.mpr ⟨hx.1, hxe⟩, rfl⟩

/-- Allocations surviving a deadline check are never Pending-and-expired. -/
theorem checkOverdue_no_pending_left (db : DB) (now : Int) :
    ∀ x ∈ (checkAndUpdateOverduePayments db now).1.allocations,
      overduePred now x = false := by
  intro x hx
  unfold checkAndUpdateOverduePayments at hx
  set overdue := db.allocations.filter (overduePred now) with hover
  set overdueIds := overdue.map (fun a => a.id) with hids
  have hmark : ∀ b ∈ db.allocations,
      overduePred now
        (if b.id ∈ overdueIds then { b with paymentStatus := PayStatus.overdue } else b) =
          false := by
    intro b _
    by_cases hb : b.id ∈ overdueIds
    · rw [if_pos hb]
      simp [overduePred]
    · rw [if_neg hb]
      by_contra hbo
      rw [Bool.not_eq_false] at hbo
      exact hb (List.mem_map.mpr ⟨b, List.mem_filter.mpr ⟨‹b ∈ db.allocations›, hbo⟩, rfl⟩)
  by_cases hauto : (fetchHostelSettings
      { db with allocations := db.allocations.map (fun a =>
          if a.id ∈ overdueIds then { a with paymentStatus := PayStatus.overdue } else a) }).autoRevokeUnpaidAllocations = true
  · rw [if_pos hauto] at hx
    rw [revokeAll_mem_allocations] at hx
    rcases List.mem_map.mp hx.1 with ⟨b, hb, hbeq⟩
    rw [← hbeq]
    exact hmark b hb
  · rw [if_neg hauto] at hx
    rcases List.mem_map.mp hx with ⟨b, hb, hbeq⟩
    rw [← hbeq]
    exact hmark b hb

/-- A deadline check over a store with no Pending-and-expired allocation does
nothing: no marking, no revocation, no state change. -/
theorem checkOverdue_clean_state (db : DB) (now : Int)
    (hclean : ∀ x ∈ db.allocations, overduePred now x = false) :
    checkAndUpdateOverduePayments db now = (db, 0, 0) := by
  unfold checkAndUpdateOverduePayments
  have hnil : db.allocations.filter (overduePred now) = [] := by
    rw [List.filter_eq_nil_iff]
    intro a ha
    rw [hclean a ha]
    exact Bool.false_ne_true
  rw [hnil]
  simp only [List.map_nil]
  have hmapid : db.allocations.map (fun a =>
      if a.id ∈ ([] : List String) then { a with paymentStatus := PayStatus.overdue } else a) =
        db.allocations := by
    have h1 : ∀ b ∈ db.allocations,
        (if b.id ∈ ([] : List String) then
          { b with paymentStatus := PayStatus.overdue } else b) = b :=
      fun b _ => if_neg (List.not_mem_nil b.id)
    rw [List.map_congr_left h1]
    exact List.map_id _
  rw [hmapid]
  split
  · rfl
  · rfl

/-- C6: running the sweep twice in immediate succession with no intervening
changes causes no extra work: the second authorised POST reports
revokedCount 0 and leaves the state of the first run intact, and the second
checkAndUpdateOverduePayments marks and revokes nothing. -/
theorem sweep_idempotent (db : DB) (tok : String) (now : Int) :
    ((postSweep (postSweep db (some ("Bearer " ++ tok)) tok false now).1
        (some ("Bearer " ++ tok)) tok false now).2.revokedCount = some 0 ∧
      (postSweep (postSweep db (some ("Bearer " ++ tok)) tok false now).1
        (some ("Bearer " ++ tok)) tok false now).1 =
        (postSweep db (some ("Bearer " ++ tok)) tok false now).1) ∧
    (checkAndUpdateOverduePayments
        (checkAndUpdateOverduePayments db now).1 now =
      ((checkAndUpdateOverduePayments db now).1, 0, 0)) := by
  constructor
  · set db1 := (postSweep db (some ("Bearer " ++ tok)) tok false now).1 with hdb1
    have hset : db1.settings = db.settings := by
      rw [hdb1, postSweep_auth_state]
      by_cases hauto : (getHostelSettings db).autoRevokeUnpaidAllocations = true
      · rw [if_pos hauto]
        simp only
        exact revokeAll_settings _ db
      · rw [if_neg hauto]
    have hgs : getHostelSettings db1 = getHostelSettings db := by
      unfold getHostelSettings
      rw [hset]
    have hstate2 := postSweep_auth_state db1 tok now
    by_cases hauto : (getHostelSettings db).autoRevokeUnpaidAllocations = true
    · have hauto1 : (getHostelSettings db1).autoRevokeUnpaidAllocations = true := by
        rw [hgs]; exact hauto
      rw [if_pos hauto1] at hstate2
      have hnil : db1.allocations.filter
          (sweepExpired (getHostelSettings db1).paymentGracePeriod now) = [] := by
        rw [List.filter_eq_nil_iff]
        intro x hx
        rw [hgs]
        rw [postSweep_no_expired_left db tok now hauto x (hdb1 ▸ hx)]
        exact Bool.false_ne_true
      rw [hnil] at hstate2
      simp only [List.map_nil] at hstate2
      constructor
      · rw [hstate2]
        rfl
      · rw [hstate2]
        rfl
    · have hauto1 : ¬ (getHostelSettings db1).autoRevokeUnpaidAllocations = true := by
        rw [hgs]; exact hauto
      rw [if_neg hauto1] at hstate2
      constructor
      · rw [hstate2]
      · rw [hstate2]
  · exact checkOverdue_clean_state _ now (checkOverdue_no_pending_left db now)

/-! ## C7 -/

/-- Searching after an in-place update of the first id-matching floor finds
the updated floor, provided the update keeps the id. -/
theorem find?_updateFirstFloor (floors : List Floor) (fid : String)
    (g : Floor → Floor) (hg : ∀ f, (g f).id = f.id) :
    (updateFirstFloor floors fid g).find? (fun f => f.id = fid) =
      (floors.find? (fun f => f.id = fid)).map g := by
  induction floors with
  | nil => rfl
  | cons f rest ih =>
    unfold updateFirstFloor
    by_cases hf : f.id = fid
    · rw [if_pos hf]
      have h1 : (g f).id = fid := by rw [hg f]; exact hf
      simp [List.find?_cons, h1, hf]
    · rw [if_neg hf]
      simp [List.find?_cons, hf, ih]

/-- Sum of a constant integer over a list. -/
theorem sum_map_const_int {α : Type} (l : List α) (c : Int) :
    (l.map (fun _ => c)).sum = c * l.length := by
  induction l with
  | nil => simp
  | cons x xs ih =>
    simp only [List.map_cons, List.sum_cons, ih, List.length_cons]
    push_cast
    ring

/-- C7: addRoomsInRange on an existing hostel and floor appends exactly the
rooms of the inclusive range whose composed number (prefix + integer +
suffix) does not already occur on the floor by exact string match, and raises
totalCapacity by capacity times the number of rooms actually added. -/
theorem addRoomsInRange_adds_exactly (db : DB) (hostelId floorId : String)
    (s e : Int) (pre suf : String) (capacity : Nat) (gender : String)
    (features : List String) (H : Hostel) (F : Floor)
    (hH : fetchHostelById db hostelId = some H)
    (hF : H.floors.find? (fun f => f.id = floorId) = some F) :
    (addRoomsInRange db hostelId floorId s e pre suf capacity gender features).2 =
      Except.ok () ∧
    (∀ i : Int,
      i ∈ freshNumbers F s e pre suf ↔
        (i ∈ intRange s e ∧
          ¬ ∃ r ∈ F.rooms, r.number = composeNumber pre suf i)) ∧
    ∃ H', fetchHostelById
        (addRoomsInRange db hostelId floorId s e pre suf capacity gender features).1
        hostelId = some H' ∧
      H'.floors.find? (fun f => f.id = floorId) = some
        { F with rooms := (F.rooms ++ (freshNumbers F s e pre suf).map
          (mkRangeRoom H F hostelId floorId pre suf capacity gender features)) } ∧
      H'.totalCapacity = H.totalCapacity +
        (capacity : Int) * (freshNumbers F s e pre suf).length := by
  have hHid : H.id = hostelId := by simpa using List.find?_some hH
  have hHmem : H ∈ db.hostels := List.mem_of_find?_eq_some hH
  unfold addRoomsInRange
  rw [hH]
  simp only [hF]
  refine ⟨trivial, ?_, ?_⟩
  · intro i
    unfold freshNumbers
    simp [List.mem_filter, List.any_eq_true]
  · set newRooms := (freshNumbers F s e pre suf).map
      (mkRangeRoom H F hostelId floorId pre suf capacity gender features) with hnew
    set hostel1 : Hostel := { H with
      floors := updateFirstFloor H.floors floorId
        (fun fl => { fl with rooms := fl.rooms ++ newRooms })
      totalCapacity :=
        H.totalCapacity + (newRooms.map (fun r => (r.capacity : Int))).sum }
      with hhostel1
    refine ⟨hostel1, ?_, ?_, ?_⟩
    · show (updateHostelDoc db hostelId hostel1).hostels.find?
        (fun h => h.id = hostelId) = some hostel1
      unfold updateHostelDoc
      simp only
      rw [find?_map_ite db.hostels hostelId hostel1 (by rw [hhostel1]; exact hHid)]
      rw [if_pos]
      rw [List.any_eq_true]
      exact ⟨H, hHmem, by simpa using hHid⟩
    · show (updateFirstFloor H.floors floorId
        (fun fl => { fl with rooms := fl.rooms ++ newRooms })).find?
          (fun f => f.id = floorId) = _
      rw [find?_updateFirstFloor H.floors floorId
        (fun fl => { fl with rooms := fl.rooms ++ newRooms }) (fun f => rfl)]
      rw [hF]
      rfl
    · show H.totalCapacity + (newRooms.map (fun r => (r.capacity : Int))).sum =
        H.totalCapacity + (capacity : Int) * (freshNumbers F s e pre suf).length
      congr 1
      rw [hnew, List.map_map]
      have hcomp : (fun r : Room => (r.capacity : Int)) ∘
          mkRangeRoom H F hostelId floorId pre suf capacity gender features =
            fun _ => (capacity : Int) := rfl
      rw [hcomp, sum_map_const_int]

/-- Witness for C7: adding A1..A5 (capacity 4) when A3 exists adds four rooms
and raises totalCapacity by exactly 16. -/
theorem addRoomsInRange_adds_exactly_witness :
    (addRoomsInRange c7db "h1" "f1" 1 5 "A" "" 4 "Mixed" []).2 = Except.ok () ∧
    ∃ H', fetchHostelById
        (addRoomsInRange c7db "h1" "f1" 1 5 "A" "" 4 "Mixed" []).1 "h1" = some H' ∧
      H'.totalCapacity = 26 := by
  have h := addRoomsInRange_adds_exactly c7db "h1" "f1" 1 5 "A" "" 4 "Mixed" []
    { sampleHostel "h1" 0 [sampleRoom "A3" 4 []] with totalCapacity := 10 }
    { id := "f1", number := "0", name := "Ground", rooms := [sampleRoom "A3" 4 []] }
    (by decide) (by decide)
  rcases h.2.2 with ⟨H', h1, _, h3⟩
  refine ⟨h.1, H', h1, ?_⟩
  rw [h3]
  decide

/-! ## C8 -/

/-- C8 counterexample: deletePayment and rejectPayment silently break the
paid-allocation invariant — deleting or rejecting the approved payment of a
Paid allocation leaves the allocation Paid with no approved payment. -/
theorem paid_invariant_not_preserved :
    paidInvariant paidDB = true ∧
    paidInvariant (deletePayment paidDB "p1").1 = false ∧
    paidInvariant (rejectPayment paidDB "p1" "admin@x.com" "bad receipt" 2).1 = false := by
  decide

/-- Propositional reading of the paid-allocation checker. -/
theorem paidInvariant_iff (db : DB) :
    paidInvariant db = true ↔
      ∀ a ∈ db.allocations, a.paymentStatus = PayStatus.paid →
        ∃ p ∈ db.payments,
          p.status = PaymentState.approved ∧ p.allocationId = a.id := by
  unfold paidInvariant
  rw [List.all_eq_true]
  constructor
  · intro h a ha hpaid
    have h1 := h a ha
    simp only [decide_eq_true_eq] at h1
    rcases h1 with h1 | h1
    · exact absurd hpaid h1
    · rw [List.any_eq_true] at h1
      rcases h1 with ⟨p, hp, hpp⟩
      exact ⟨p, hp, by simpa using hpp⟩
  · intro h a ha
    simp only [decide_eq_true_eq]
    by_cases hpaid : a.paymentStatus = PayStatus.paid
    · right
      rcases h a ha hpaid with ⟨p, hp, hpp⟩
      rw [List.any_eq_true]
      exact ⟨p, hp, by simpa using hpp⟩
    · exact Or.inl hpaid

/-- State produced by approvePayment, spelt out. -/
theorem approvePayment_fst (db : DB) (paymentId adminEmail : String)
    (now : Int) :
    (approvePayment db paymentId adminEmail now).1 =
      match db.payments.find? (fun p => p.id = paymentId) with
      | none => db
      | some p =>
        (updateAllocationPaid
          { db with payments := db.payments.map (fun q =>
              if q.id = paymentId then approveStamp adminEmail now q else q) }
          p.allocationId paymentId).1 := by
  unfold approvePayment
  cases db.payments.find? (fun p => p.id = paymentId) <;> rfl

/-- State produced by updateAllocationPaid, spelt out. -/
theorem updateAllocationPaid_fst (db : DB) (allocationId paymentId : String) :
    (updateAllocationPaid db allocationId paymentId).1 =
      if db.allocations.any (fun a => a.id = allocationId) then
        { db with allocations := db.allocations.map (fun a =>
            if a.id = allocationId then markPaid paymentId a else a) }
      else db := by
  unfold updateAllocationPaid
  split <;> rfl

/-- An id-targeted Paid flip keeps the invariant as long as some approved
payment points at the target id and every already-approved witness
survives. -/
theorem updateAllocationPaid_preserves (db : DB)
    (allocationId paymentId : String)
    (h : ∀ a ∈ db.allocations, a.paymentStatus = PayStatus.paid →
      ∃ p ∈ db.payments, p.status = PaymentState.approved ∧ p.allocationId = a.id)
    (hnew : ∃ p ∈ db.payments,
      p.status = PaymentState.approved ∧ p.allocationId = allocationId) :
    paidInvariant (updateAllocationPaid db allocationId paymentId).1 = true := by
  rw [updateAllocationPaid_fst, paidInvariant_iff]
  split
  · intro a ha hpaid
    simp only at ha
    rcases List.mem_map.mp ha with ⟨b, hb, hbeq⟩
    by_cases hbid : b.id = allocationId
    · rw [if_pos hbid] at hbeq
      rcases hnew with ⟨p, hp, hps, hpa⟩
      refine ⟨p, hp, hps, ?_⟩
      rw [← hbeq]
      show p.allocationId = (markPaid paymentId b).id
      rw [show (markPaid paymentId b).id = b.id from rfl, hbid]
      exact hpa
    · rw [if_neg hbid] at hbeq
      rw [← hbeq] at hpaid ⊢
      exact h b hb hpaid
  · exact h

/-- C8 amended: approvePayment and addAdminPayment preserve the
paid-allocation invariant in every state (including their partial-failure
states); rejectPayment and deletePayment do not, so the invariant holds only
while the approved payment backing a Paid allocation is never rejected or
deleted. -/
theorem paid_invariant_preserved_by_approvals (db : DB)
    (paymentId adminEmail newId : String) (pay : PaymentInput) (now : Int)
    (h : paidInvariant db = true) :
    paidInvariant (approvePayment db paymentId adminEmail now).1 = true ∧
    paidInvariant (addAdminPayment db pay adminEmail now newId).1 = true := by
  rw [paidInvariant_iff] at h
  constructor
  · rw [approvePayment_fst]
    cases hfind : db.payments.find? (fun p => p.id = paymentId) with
    | none =>
      rw [paidInvariant_iff]
      exact h
    | some p =>
      have hpmem : p ∈ db.payments := List.mem_of_find?_eq_some hfind
      have hpid : p.id = paymentId := by simpa using List.find?_some hfind
      apply updateAllocationPaid_preserves
      · intro a ha hpaid
        rcases h a ha hpaid with ⟨q, hq, hqs, hqa⟩
        by_cases hqid : q.id = paymentId
        · refine ⟨approveStamp adminEmail now q, ?_, rfl, hqa⟩
          exact List.mem_map.mpr ⟨q, hq, by rw [if_pos hqid]⟩
        · refine ⟨q, ?_, hqs, hqa⟩
          exact List.mem_map.mpr ⟨q, hq, by rw [if_neg hqid]⟩
      · refine ⟨approveStamp adminEmail now p, ?_, rfl, rfl⟩
        exact List.mem_map.mpr ⟨p, hpmem, by rw [if_pos hpid]⟩
  · show paidInvariant (updateAllocationPaid
      { db with payments := db.payments ++ [mkAdminPayment pay adminEmail now newId] }
      pay.allocationId newId).1 = true
    apply updateAllocationPaid_preserves
    · intro a ha hpaid
      rcases h a ha hpaid with ⟨q, hq, hqs, hqa⟩
      exact ⟨q, List.mem_append_left _ hq, hqs, hqa⟩
    · refine ⟨mkAdminPayment pay adminEmail now newId, ?_, rfl, rfl⟩
      exact List.mem_append_right _ (List.mem_singleton.mpr rfl)

/-- Witness for the amended C8: approving a pending payment of a store whose
invariant holds keeps the invariant. -/
theorem paid_invariant_preserved_by_approvals_witness :
    paidInvariant (approvePayment paidDB "p1" "admin@x.com" 5).1 = true := by
  have h := paid_invariant_preserved_by_approvals paidDB "p1" "admin@x.com" "p9"
    { studentRegNumber := "H123456X", allocationId := "al1",
      receiptNumber := "R2", amount := 50, paymentMethod := "Cash", notes := "" }
    5 (by decide)
  exact h.1

/-! ## C9 -/

/-- C9 counterexample: an authorised request that hits a store failure while
listing allocations returns 500, so authentication failure is not the only
source of a non-200 status. -/
theorem postSweep_500_on_store_error :
    bearerOk (some ("Bearer " ++ "t")) "t" = true ∧
    (postSweep c5db (some ("Bearer " ++ "t")) "t" true 0).2.status = 500 := by
  decide

/-- C9 amended: a mismatched or missing bearer token yields 401 with no state
change; an authorised request over a healthy store always yields 200 (even
with zero allocations affected); an authorised request whose allocation
listing throws yields 500 — also with no state change — so non-200 statuses
arise exactly from authentication failure or internal store failure. -/
theorem postSweep_status_amended (db : DB) (authHeader : Option String)
    (tok : String) (sf : Bool) (now : Int) :
    (bearerOk authHeader tok = false →
      (postSweep db authHeader tok sf now).2.status = 401 ∧
      (postSweep db authHeader tok sf now).1 = db) ∧
    (bearerOk authHeader tok = true → sf = false →
      (postSweep db authHeader tok sf now).2.status = 200) ∧
    (bearerOk authHeader tok = true → sf = true →
      (postSweep db authHeader tok sf now).1 = db ∧
      ((postSweep db authHeader tok sf now).2.status = 200 ∨
        (postSweep db authHeader tok sf now).2.status = 500)) := by
  refine ⟨?_, ?_, ?_⟩
  · intro hb
    unfold postSweep
    rw [if_neg (by rw [hb]; exact Bool.false_ne_true)]
    exact ⟨rfl, rfl⟩
  · intro hb hsf
    subst hsf
    unfold postSweep
    rw [if_pos hb]
    by_cases hauto : (getHostelSettings db).autoRevokeUnpaidAllocations = true
    · rw [if_pos hauto]
      rfl
    · rw [if_neg hauto]
  · intro hb hsf
    subst hsf
    unfold postSweep
    rw [if_pos hb]
    by_cases hauto : (getHostelSettings db).autoRevokeUnpaidAllocations = true
    · rw [if_pos hauto]
      exact ⟨rfl, Or.inr rfl⟩
    · rw [if_neg hauto]
      exact ⟨rfl, Or.inl rfl⟩

/-- Witness for the amended C9: a wrong token gets 401 without touching the
store, the right token gets 200. -/
theorem postSweep_status_amended_witness :
    ((postSweep c5db (some "Bearer wrong") "t" false 0).2.status = 401 ∧
      (postSweep c5db (some "Bearer wrong") "t" false 0).1 = c5db) ∧
    (postSweep c5db (some ("Bearer " ++ "t")) "t" false 0).2.status = 200 := by
  have h1 := postSweep_status_amended c5db (some "Bearer wrong") "t" false 0
  have h2 := postSweep_status_amended c5db (some ("Bearer " ++ "t")) "t" false 0
  exact ⟨h1.1 (by decide), h2.2.1 (by decide) rfl⟩

/-! ## C10 -/

/-- C10: when the hostel document cannot be fetched, or no room of its tree
carries the requested roomId, allocateRoom still persists and returns the
allocation record without any not-found error, and no hostel (hence no
occupant list) changes. -/
theorem allocateRoom_silent_on_missing (db : DB)
    (reg roomId hostelId newId : String) (d : DateTime)
    (hnd : (db.hostels.map Hostel.id).Nodup)
    (hno : ∀ H ∈ db.hostels, H.id = hostelId →
      ∀ f ∈ H.floors, ∀ r ∈ f.rooms, r.id ≠ roomId) :
    (allocateRoom db reg roomId hostelId newId d).2 =
      mkAllocation reg roomId hostelId newId d
        (fetchHostelSettings db).paymentGracePeriod ∧
    (allocateRoom db reg roomId hostelId newId d).1.allocations =
      db.allocations ++ [(allocateRoom db reg roomId hostelId newId d).2] ∧
    (allocateRoom db reg roomId hostelId newId d).1.hostels = db.hostels := by
  refine ⟨rfl, allocateRoom_allocations db reg roomId hostelId newId d, ?_⟩
  rw [allocateRoom_hostels]
  cases hfetch : fetchHostelById db hostelId with
  | none => rfl
  | some H =>
    have hHmem : H ∈ db.hostels := List.mem_of_find?_eq_some hfetch
    have hHid : H.id = hostelId := by simpa using List.find?_some hfetch
    have hTid : allocateUpdateTree reg roomId H = H := by
      unfold allocateUpdateTree
      have hfl : H.floors.map (fun f =>
          { f with rooms := f.rooms.map (allocatePushRoom reg roomId) }) = H.floors := by
        have hfr : ∀ f ∈ H.floors,
            { f with rooms := f.rooms.map (allocatePushRoom reg roomId) } = f := by
          intro f hf
          have hrr : f.rooms.map (allocatePushRoom reg roomId) = f.rooms := by
            have h1 : ∀ r ∈ f.rooms, allocatePushRoom reg roomId r = r := by
              intro r hr
              unfold allocatePushRoom
              rw [if_neg (hno H hHmem hHid f hf r hr)]
            rw [List.map_congr_left h1]
            exact List.map_id _
          rw [hrr]
        rw [List.map_congr_left hfr]
        exact List.map_id _
      rw [hfl]
    show db.hostels.map (fun g =>
      if g.id = hostelId then allocateUpdateTree reg roomId H else g) = db.hostels
    rw [hTid]
    have hgid : ∀ g ∈ db.hostels, (if g.id = hostelId then H else g) = g := by
      intro g hg
      by_cases hgi : g.id = hostelId
      · rw [if_pos hgi]
        exact eq_of_nodup_map Hostel.id hnd hHmem hg (by rw [hHid, hgi])
      · rw [if_neg hgi]
    rw [List.map_congr_left hgid]
    exact List.map_id _

/-- Witness for C10: allocating against a nonexistent room leaves every
hostel untouched while the allocation is still created and returned. -/
theorem allocateRoom_silent_on_missing_witness :
    (allocateRoom c10db "H123456X" "rX" "h1" "a1" d0).1.hostels = c10db.hostels ∧
    (allocateRoom c10db "H123456X" "rX" "h1" "a1" d0).1.allocations =
      c10db.allocations ++ [(allocateRoom c10db "H123456X" "rX" "h1" "a1" d0).2] := by
  have h := allocateRoom_silent_on_missing c10db "H123456X" "rX" "h1" "a1" d0
    (by decide) (by decide)
  exact ⟨h.2.2, h.2.1⟩

end ResApp
